import Mathlib

/-!
The `check-run` command: event normalisation and check-run construction.

A shallow embedding of `cmd/check-run/main.go`.

* Go strings are Lean `String`s, a Go `error` is `Option String` (`none` is the
  nil error, `some msg` an error with message `msg`).
* A Go pointer field `*T` is `Option T` (`none` is the nil pointer).  A method
  with a nil-safe receiver takes the `Option`; a field read through a nil
  pointer is a run-time panic and is represented explicitly.
* `payload.Body` has Go type `interface{}` and is filled by `json.Unmarshal`,
  so it ranges over JSON documents (`Json`).  `json.Marshal` of such a value
  gives that document back and has no error case.
* The operating system, the clock, the JSON parser of the two environment
  documents and the GitHub client are explicit inputs of `main` (`Env`).
-/

namespace Brigade

/-! ## JSON documents -/

/-- A JSON document, as `json.Unmarshal` stores it in an `interface{}`. -/
inductive Json where
  | null : Json
  | bool : Bool → Json
  | num : Int → Json
  | str : String → Json
  | arr : List Json → Json
  | obj : List (String × Json) → Json

/-! ## Library types (`go-github`), restricted to the fields `main.go` reads -/

/-- The `github.Repository` record: `FullName *string` with tag `full_name`. -/
structure Repository where
  FullName : Option String

/-- The `github.CheckSuite` record: `HeadBranch`, `HeadSHA` (`*string`). -/
structure CheckSuite where
  HeadBranch : Option String
  HeadSHA : Option String

/-- The `github.CheckRun` record: `CheckSuite *CheckSuite`. -/
structure CheckRun where
  CheckSuite : Option CheckSuite

/-- The `github.CheckRunEvent` record. -/
structure CheckRunEvent where
  CheckRun : Option CheckRun
  Repo : Option Repository

/-- The `github.CheckSuiteEvent` record. -/
structure CheckSuiteEvent where
  CheckSuite : Option CheckSuite
  Repo : Option Repository

/-- The `github.IssueCommentEvent` record. -/
structure IssueCommentEvent where
  Repo : Option Repository

/-- Accessor `(*Repository).GetFullName`: the empty string on a nil receiver or
a nil field. -/
def Repository.GetFullName : Option Repository → String
  | none => ""
  | some r => r.FullName.getD ""

/-- Accessor `(*CheckSuite).GetHeadSHA`, nil-safe like `GetFullName`. -/
def CheckSuite.GetHeadSHA : Option CheckSuite → String
  | none => ""
  | some s => s.HeadSHA.getD ""

/-- Accessor `(*CheckSuite).GetHeadBranch`, nil-safe like `GetFullName`. -/
def CheckSuite.GetHeadBranch : Option CheckSuite → String
  | none => ""
  | some s => s.HeadBranch.getD ""

/-- Modelled from the spec: `webhook.Payload` (package `pkg/webhook`, whose
declaration is not part of the sources at hand).  `Type` is the event tag,
`Body` the structured document, `Commit` and `Branch` the override fields,
`Token` the installation token `main` reads. -/
structure Payload where
  Type_ : String
  Token : String
  Body : Json
  Commit : String
  Branch : String

/-- The three `json.Unmarshal` calls of `repoCommitBranch`, one per target
type.  `Except.error msg` is a decode error. -/
structure Codec where
  unmarshalCheckRunEvent : Json → Except String CheckRunEvent
  unmarshalCheckSuiteEvent : Json → Except String CheckSuiteEvent
  unmarshalIssueCommentEvent : Json → Except String IssueCommentEvent

/-! ## A concrete decoder

`encoding/json` on the fields above: `null` leaves the target untouched, an
object fills the fields whose key is present and leaves the others nil, a
value of any other kind is a type error.  Keys are matched exactly (the
case-folding fallback of `encoding/json` is left out). -/

/-- Decoding into a `*string` field. -/
def decodeString : Json → Except String (Option String)
  | Json.null => .ok none
  | Json.str s => .ok (some s)
  | _ => .error "json: cannot unmarshal into Go value of type string"

/-- Decoding the field with key `k` of an object, absent keys giving nil. -/
def decodeField {α : Type} (dec : Json → Except String (Option α))
    (kvs : List (String × Json)) (k : String) : Except String (Option α) :=
  match kvs.lookup k with
  | none => .ok none
  | some v => dec v

/-- Decoding into a `*Repository` field. -/
def decodeRepository : Json → Except String (Option Repository)
  | Json.null => .ok none
  | Json.obj kvs =>
    match decodeField decodeString kvs "full_name" with
    | .error e => .error e
    | .ok n => .ok (some { FullName := n })
  | _ => .error "json: cannot unmarshal into Go value of type github.Repository"

/-- Decoding into a `*CheckSuite` field. -/
def decodeCheckSuite : Json → Except String (Option CheckSuite)
  | Json.null => .ok none
  | Json.obj kvs =>
    match decodeField decodeString kvs "head_branch",
          decodeField decodeString kvs "head_sha" with
    | .ok b, .ok c => .ok (some { HeadBranch := b, HeadSHA := c })
    | .error e, _ => .error e
    | _, .error e => .error e
  | _ => .error "json: cannot unmarshal into Go value of type github.CheckSuite"

/-- Decoding into a `*CheckRun` field. -/
def decodeCheckRun : Json → Except String (Option CheckRun)
  | Json.null => .ok none
  | Json.obj kvs =>
    match decodeField decodeCheckSuite kvs "check_suite" with
    | .error e => .error e
    | .ok s => .ok (some { CheckSuite := s })
  | _ => .error "json: cannot unmarshal into Go value of type github.CheckRun"

/-- The call `json.Unmarshal(tmp, &github.CheckRunEvent{})`. -/
def unmarshalCheckRunEvent : Json → Except String CheckRunEvent
  | Json.null => .ok { CheckRun := none, Repo := none }
  | Json.obj kvs =>
    match decodeField decodeCheckRun kvs "check_run",
          decodeField decodeRepository kvs "repository" with
    | .ok r, .ok p => .ok { CheckRun := r, Repo := p }
    | .error e, _ => .error e
    | _, .error e => .error e
  | _ => .error "json: cannot unmarshal into Go value of type github.CheckRunEvent"

/-- The call `json.Unmarshal(tmp, &github.CheckSuiteEvent{})`. -/
def unmarshalCheckSuiteEvent : Json → Except String CheckSuiteEvent
  | Json.null => .ok { CheckSuite := none, Repo := none }
  | Json.obj kvs =>
    match decodeField decodeCheckSuite kvs "check_suite",
          decodeField decodeRepository kvs "repository" with
    | .ok s, .ok p => .ok { CheckSuite := s, Repo := p }
    | .error e, _ => .error e
    | _, .error e => .error e
  | _ => .error "json: cannot unmarshal into Go value of type github.CheckSuiteEvent"

/-- The call `json.Unmarshal(tmp, &github.IssueCommentEvent{})`. -/
def unmarshalIssueCommentEvent : Json → Except String IssueCommentEvent
  | Json.null => .ok { Repo := none }
  | Json.obj kvs =>
    match decodeField decodeRepository kvs "repository" with
    | .error e => .error e
    | .ok p => .ok { Repo := p }
  | _ => .error "json: cannot unmarshal into Go value of type github.IssueCommentEvent"

/-- The decoder `encoding/json` provides. -/
def goJSON : Codec where
  unmarshalCheckRunEvent := unmarshalCheckRunEvent
  unmarshalCheckSuiteEvent := unmarshalCheckSuiteEvent
  unmarshalIssueCommentEvent := unmarshalIssueCommentEvent

/-! ## `repoCommitBranch` -/

/-- What a call of `repoCommitBranch` does: it returns its four results
(`err = none` is the nil error) or panics on a nil pointer dereference. -/
inductive Outcome where
  | ret (repo commit branch : String) (err : Option String) : Outcome
  | panic : Outcome
deriving DecidableEq

/-- The call `json.Marshal(payload.Body)`: total on JSON documents. -/
def jsonMarshal (body : Json) : Except String Json := .ok body

/-- The function `repoCommitBranch` of `main.go`. -/
def repoCommitBranch (J : Codec) (payload : Payload) : Outcome :=
  match jsonMarshal payload.Body with
  | .error err => .ret "" "" "" (some err)
  | .ok tmp =>
    if payload.Type_ = "check_run" then
      match J.unmarshalCheckRunEvent tmp with
      | .error err => .ret "" "" "" (some err)
      | .ok event =>
        let repo := Repository.GetFullName event.Repo
        -- `event.CheckRun.CheckSuite` reads a field through `event.CheckRun`
        match event.CheckRun with
        | none => .panic
        | some checkRun =>
          let commit := CheckSuite.GetHeadSHA checkRun.CheckSuite
          let branch := CheckSuite.GetHeadBranch checkRun.CheckSuite
          .ret repo commit branch none
    else if payload.Type_ = "check_suite" then
      match J.unmarshalCheckSuiteEvent tmp with
      | .error err => .ret "" "" "" (some err)
      | .ok event =>
        let repo := Repository.GetFullName event.Repo
        let commit := CheckSuite.GetHeadSHA event.CheckSuite
        let branch := CheckSuite.GetHeadBranch event.CheckSuite
        .ret repo commit branch none
    else if payload.Type_ = "issue_comment" then
      match J.unmarshalIssueCommentEvent tmp with
      | .error err => .ret "" "" "" (some err)
      | .ok event =>
        let repo := Repository.GetFullName event.Repo
        let commit := payload.Commit
        if commit = "" then .ret repo commit "" (some "commit empty")
        else
          let branch := payload.Branch
          if branch = "" then .ret repo commit branch (some "branch empty")
          else .ret repo commit branch none
    else
      .ret "" "" "" (some ("unknown payload type " ++ payload.Type_))

/-! ## The check run and the GitHub client -/

/-- Modelled from the spec: `check.Action` (package `pkg/check`, whose
declaration is not part of the sources at hand): label, description and
identifier of a follow-up button. -/
structure Action where
  Label : String
  Description : String
  Identifier : String
deriving DecidableEq

/-- Modelled from the spec: `check.Output` (package `pkg/check`): the free-form
display fields. -/
structure Output where
  Title : String
  Summary : String
  Text : String
deriving DecidableEq

/-- Modelled from the spec: `check.Run` (package `pkg/check`).  Every field
`main` assigns is a Go string, whose zero value `""` is the unset field;
`Actions` is a slice, `none` being the nil slice. -/
structure Run where
  Name : String
  HeadBranch : String
  HeadSHA : String
  StartedAt : String
  ExternalID : String
  DetailsURL : String
  Output : Output
  Status : String
  Conclusion : String
  CompletedAt : String
  Actions : Option (List Action)
deriving DecidableEq

/-- A request built by the client. -/
structure Request where
  Method : String
  URL : String
  Body : Run
  Header : List (String × String)

/-- A response of the host: its body and its `%+v` rendering. -/
structure Response where
  Body : String
  Dump : String

/-- The `github.Client` value, as far as `createRun` uses it.  The call
`Do(ctx, req, out)` gives the response (nil on a transport failure), what it
wrote to `out`, and the error. -/
structure Client where
  NewRequest : String → String → Run → Except String Request
  Do : Request → Option Response × String × Option String

/-- The call `req.Header.Set(key, value)`. -/
def Request.setHeader (req : Request) (key value : String) : Request :=
  { req with Header := (key, value) :: req.Header.filter (fun kv => kv.1 ≠ key) }

/-- The record `checkTool` of `main.go`. -/
structure checkTool where
  client : Client
  owner : String
  repo : String

/-- What a call of `createRun` does: it returns `(out, err)`, having printed
`printed`, or panics. -/
inductive CreateRunOutcome where
  | ret (printed out : String) (err : Option String) : CreateRunOutcome
  | panic : CreateRunOutcome

/-- The path `createRun` posts to: `fmt.Sprintf("repos/%s/%s/check-runs", ...)`. -/
def checkRunsPath (owner repo : String) : String :=
  "repos/" ++ owner ++ "/" ++ repo ++ "/check-runs"

/-- The method `(*checkTool).createRun` of `main.go`. -/
def checkTool.createRun (c : checkTool) (cr : Run) : CreateRunOutcome :=
  let u := checkRunsPath c.owner c.repo
  match c.client.NewRequest "POST" u cr with
  | .error err => .ret "" "" (some err)
  | .ok req =>
    let req := req.setHeader "Accept" "application/vnd.github.antiope-preview+json"
    match c.client.Do req with
    | (res, _, some err) =>
      -- `res.Body` reads a field through `res`
      match res with
      | none => .panic
      | some res => .ret res.Dump res.Body (some err)
    | (_, out, none) => .ret "" out none

/-! ## The process environment -/

/-- Everything `main` takes from outside: the environment variables, the file
system, the clock (formatted with `check.RFC8601`) at the two places `main`
reads it, the two `json.Unmarshal` calls on environment documents, the
decoder of event bodies, and the client constructor. -/
structure Env where
  LookupEnv : String → Option String
  ReadFile : String → String
  nowStarted : String
  nowCompleted : String
  unmarshalActions : String → Except String (Option (List Action))
  unmarshalPayload : String → Except String Payload
  json : Codec
  NewClientFromInstallationToken : String → String → String → Except String Client

/-- The call `os.Getenv`. -/
def Env.Getenv (E : Env) (key : String) : String := (E.LookupEnv key).getD ""

/-- The function `envOr` of `main.go`. -/
def envOr (E : Env) (envvar defaultText : String) : String :=
  match E.LookupEnv envvar with
  | some val => val
  | none => defaultText

/-- The function `envOrFile` of `main.go`; `E.ReadFile` gives the bytes read,
none when the read fails. -/
def envOrFile (E : Env) (envvar filepath defaultText : String) : String :=
  match E.LookupEnv envvar with
  | some val => val
  | none =>
    let bytes := E.ReadFile filepath
    if bytes.length > 0 then bytes else defaultText

/-! ## `strings.Split` with a one-byte separator -/

/-- Cutting a character sequence at every occurrence of `sep`. -/
def splitChars (sep : Char) : List Char → List (List Char)
  | [] => [[]]
  | c :: cs =>
    if c = sep then [] :: splitChars sep cs
    else
      match splitChars sep cs with
      | [] => [[c]]
      | p :: ps => (c :: p) :: ps

/-- The call `strings.Split(s, sep)` for a separator of one byte. -/
def stringsSplit (s : String) (sep : Char) : List String :=
  (splitChars sep s.data).map String.mk

/-- The call `strings.Count(s, sep)` for a separator of one byte. -/
def stringsCount (s : String) (sep : Char) : Nat := s.data.count sep

/-! ## `main` -/

/-- How the process ends: by `os.Exit(code)` or by returning from `main`
(code `0`), having printed `stdout`, with `submitted` the arguments
`(owner, repo, run)` of the `createRun` call when it was made; or by a panic. -/
inductive MainOutcome where
  | exit (code : Nat) (stdout : String) (submitted : Option (String × String × Run)) : MainOutcome
  | panic : MainOutcome

/-- Lines 62 to 85 of `main`: the check run. -/
def buildRun (name branch commit startedAt externalID detailsURL title summary text
    conclusion : String) (actions : Option (List Action)) (now : String) : Run :=
  let run : Run :=
    { Name := name
      HeadBranch := branch
      HeadSHA := commit
      StartedAt := startedAt
      ExternalID := externalID
      DetailsURL := detailsURL
      Output := { Title := title, Summary := summary, Text := text }
      Status := "in_progress"
      Conclusion := ""
      CompletedAt := ""
      Actions := none }
  let run : Run :=
    if conclusion.length > 0 then
      { run with Conclusion := conclusion, Status := "completed", CompletedAt := now }
    else run
  if actions.isSome then { run with Actions := actions } else run

/-- Lines 89 to 109 of `main`: client construction and submission. -/
def submit (E : Env) (ghBaseURL ghUploadURL token owner repo : String) (run : Run) :
    MainOutcome :=
  match E.NewClientFromInstallationToken ghBaseURL ghUploadURL token with
  | .error err => .exit 3 (err ++ "\n") none
  | .ok ghc =>
    let ct : checkTool := { client := ghc, owner := owner, repo := repo }
    match ct.createRun run with
    | .panic => .panic
    | .ret printed out (some err) =>
      .exit 1 (printed ++ "Error: " ++ err ++ " (got " ++ out ++ ")\n") (some (owner, repo, run))
    | .ret printed out none => .exit 0 (printed ++ out ++ "\n") (some (owner, repo, run))

/-- The exit code of an outcome that is not a panic. -/
def MainOutcome.exitCode : MainOutcome → Option Nat
  | .exit code _ _ => some code
  | .panic => none

/-- Lines 34 to 41 of `main`: the actions, nil unless `CHECK_ACTIONS` is set
to a non-empty document. -/
def parseActions (E : Env) : Except String (Option (List Action)) :=
  let actionsJSON := envOr E "CHECK_ACTIONS" ""
  if actionsJSON ≠ "" then E.unmarshalActions actionsJSON else .ok none

/-- The function `main` of `main.go`. -/
def main (E : Env) : MainOutcome :=
  let payload := E.Getenv "CHECK_PAYLOAD"
  let name := envOr E "CHECK_NAME" "Brigade"
  let title := envOr E "CHECK_TITLE" "Running Check"
  let summary := envOr E "CHECK_SUMMARY" ""
  let text := envOrFile E "CHECK_TEXT" "/check-run/text" ""
  let conclusion := envOr E "CHECK_CONCLUSION" ""
  let detailsURL := envOr E "CHECK_DETAILS_URL" ""
  let externalID := envOr E "CHECK_EXTERNAL_ID" ""
  let startedAt := envOr E "CHECK_STARTED_AT" E.nowStarted
  let ghBaseURL := envOr E "GITHUB_BASE_URL" ""
  let ghUploadURL := envOr E "GITHUB_UPLOAD_URL" ghBaseURL
  match parseActions E with
  | .error err => .exit 1 ("Error: could not parse actions: " ++ err ++ "\n") none
  | .ok actions =>
    match E.unmarshalPayload payload with
    | .error err => .exit 1 ("Error: could not parse payload: " ++ err ++ "\n") none
    | .ok data =>
      let token := data.Token
      match repoCommitBranch E.json data with
      | .panic => .panic
      | .ret _ _ _ (some err) => .exit 2 ("Error processing data: " ++ err) none
      | .ret repo commit branch none =>
        let parts := stringsSplit repo '/'
        if parts.length ≠ 2 then
          .exit 1 "Error: CheckSuite.Repository.FullName is required\n" none
        else
          let run := buildRun name branch commit startedAt externalID detailsURL title
            summary text conclusion actions E.nowCompleted
          submit E ghBaseURL ghUploadURL token (parts.getD 0 "") (parts.getD 1 "") run

/-! ## Concrete inputs -/

/-- The scenario body
`{"repository":{"full_name":"acme/widget"},"check_suite":{"head_sha":"abc123","head_branch":"main"}}`. -/
def scenarioBody : Json :=
  Json.obj [("repository", Json.obj [("full_name", Json.str "acme/widget")]),
            ("check_suite", Json.obj [("head_sha", Json.str "abc123"),
                                      ("head_branch", Json.str "main")])]

/-- A check-run event body: the scenario's check suite nested in a check run. -/
def checkRunBody : Json :=
  Json.obj [("repository", Json.obj [("full_name", Json.str "acme/widget")]),
            ("check_run", Json.obj [("check_suite",
              Json.obj [("head_sha", Json.str "abc123"), ("head_branch", Json.str "main")])])]

/-- An issue-comment event body: only the repository matters. -/
def issueCommentBody : Json :=
  Json.obj [("repository", Json.obj [("full_name", Json.str "acme/widget")])]

/-- The body `{}`: a JSON object with no `check_run` and no `check_suite`. -/
def emptyBody : Json := Json.obj []

/-- A body with a repository and no `check_suite` object. -/
def repositoryOnlyBody : Json :=
  Json.obj [("repository", Json.obj [("full_name", Json.str "acme/widget")])]

/-- The scenario body with the repository full name `name`. -/
def bodyWithRepository (name : String) : Json :=
  Json.obj [("repository", Json.obj [("full_name", Json.str name)]),
            ("check_suite", Json.obj [("head_sha", Json.str "abc123"),
                                      ("head_branch", Json.str "main")])]

/-- A `check_suite` payload with body `body`. -/
def checkSuitePayload (body : Json) : Payload :=
  { Type_ := "check_suite", Token := "t", Body := body, Commit := "", Branch := "" }

/-- A client whose host accepts every request. -/
def acceptingClient : Client where
  NewRequest := fun method url body =>
    .ok { Method := method, URL := url, Body := body, Header := [] }
  Do := fun _ => (some { Body := "", Dump := "" }, "created", none)

/-- A client whose host answers every request with a validation failure. -/
def rejectingClient : Client where
  NewRequest := fun method url body =>
    .ok { Method := method, URL := url, Body := body, Header := [] }
  Do := fun _ =>
    (some { Body := "Validation Failed", Dump := "422" }, "", some "422 Unprocessable Entity")

/-- An environment: the variables `vars`, no file, a fixed clock, `payload` as
the outcome of parsing `CHECK_PAYLOAD`, `client` as the outcome of the client
construction; `CHECK_ACTIONS` parses only when it is `[]`. -/
def envOf (vars : List (String × String)) (payload : Except String Payload)
    (client : Except String Client) : Env where
  LookupEnv := fun k => vars.lookup k
  ReadFile := fun _ => ""
  nowStarted := "2018-01-01T00:00:00Z"
  nowCompleted := "2018-01-01T00:00:05Z"
  unmarshalActions := fun s =>
    if s = "[]" then .ok (some []) else .error "unexpected end of JSON input"
  unmarshalPayload := fun _ => payload
  json := goJSON
  NewClientFromInstallationToken := fun _ _ _ => client

/-- The scenario: a check-suite payload, no conclusion. -/
def envScenario : Env :=
  envOf [("CHECK_PAYLOAD", "scenario")] (.ok (checkSuitePayload scenarioBody))
    (.ok acceptingClient)

/-- `CHECK_ACTIONS` is set to a document that does not parse. -/
def envBadActions : Env :=
  envOf [("CHECK_PAYLOAD", "scenario"), ("CHECK_ACTIONS", "[")]
    (.ok (checkSuitePayload scenarioBody)) (.ok acceptingClient)

/-- `CHECK_PAYLOAD` is not set: the empty string does not parse. -/
def envBadPayload : Env :=
  envOf [] (.error "unexpected end of JSON input") (.ok acceptingClient)

/-- The payload has an event type that is not recognised. -/
def envUnknownType : Env :=
  envOf [("CHECK_PAYLOAD", "push")]
    (.ok { Type_ := "push", Token := "t", Body := scenarioBody, Commit := "", Branch := "" })
    (.ok acceptingClient)

/-- The repository full name has no `/`. -/
def envNoSlash : Env :=
  envOf [("CHECK_PAYLOAD", "widget")] (.ok (checkSuitePayload (bodyWithRepository "widget")))
    (.ok acceptingClient)

/-- The repository full name is `owner/`. -/
def envTrailingSlash : Env :=
  envOf [("CHECK_PAYLOAD", "owner/")] (.ok (checkSuitePayload (bodyWithRepository "owner/")))
    (.ok acceptingClient)

/-- The body has a repository and no `check_suite` object. -/
def envNoSuite : Env :=
  envOf [("CHECK_PAYLOAD", "repository only")] (.ok (checkSuitePayload repositoryOnlyBody))
    (.ok acceptingClient)

/-- The client cannot be constructed. -/
def envNoClient : Env :=
  envOf [("CHECK_PAYLOAD", "scenario")] (.ok (checkSuitePayload scenarioBody))
    (.error "failed to parse base URL")

/-- The host rejects the check run. -/
def envRejected : Env :=
  envOf [("CHECK_PAYLOAD", "scenario"), ("CHECK_CONCLUSION", "success")]
    (.ok (checkSuitePayload scenarioBody)) (.ok rejectingClient)

/-! ## Abbreviations used in the statements -/

/-- The check run `main` builds for the commit and branch of the identity: the
arguments `main` passes at lines 62 to 85, read from the environment. -/
def mainRun (E : Env) (actions : Option (List Action)) (commit branch : String) : Run :=
  buildRun (envOr E "CHECK_NAME" "Brigade") branch commit
    (envOr E "CHECK_STARTED_AT" E.nowStarted) (envOr E "CHECK_EXTERNAL_ID" "")
    (envOr E "CHECK_DETAILS_URL" "") (envOr E "CHECK_TITLE" "Running Check")
    (envOr E "CHECK_SUMMARY" "") (envOrFile E "CHECK_TEXT" "/check-run/text" "")
    (envOr E "CHECK_CONCLUSION" "") actions E.nowCompleted

/-- The base URL `main` passes to the client constructor. -/
def mainBaseURL (E : Env) : String := envOr E "GITHUB_BASE_URL" ""

/-- The upload URL `main` passes to the client constructor. -/
def mainUploadURL (E : Env) : String := envOr E "GITHUB_UPLOAD_URL" (envOr E "GITHUB_BASE_URL" "")

/-- The message of the repository validation at line 58. -/
def repositoryRequired : String := "Error: CheckSuite.Repository.FullName is required\n"

/-- A body that is a JSON object or `null`: the two kinds `encoding/json`
accepts for a record. -/
def Json.isRecord : Json → Bool
  | Json.null => true
  | Json.obj _ => true
  | _ => false

/-! ## Lemmas on strings and on `strings.Split` -/

theorem length_pos_iff_ne_empty (s : String) : s.length > 0 ↔ s ≠ "" := by
  rw [gt_iff_lt, String.length, List.length_pos, ne_eq, ne_eq, String.ext_iff]

theorem splitChars_ne_nil (sep : Char) (l : List Char) : splitChars sep l ≠ [] := by
  cases l with
  | nil => simp [splitChars]
  | cons c cs =>
    by_cases h : c = sep
    · simp [splitChars, h]
    · cases hs : splitChars sep cs <;> simp [splitChars, h, hs]

theorem splitChars_length (sep : Char) (l : List Char) :
    (splitChars sep l).length = l.count sep + 1 := by
  induction l with
  | nil => simp [splitChars]
  | cons c cs ih =>
    by_cases h : c = sep
    · simp [splitChars, h, ih]
    · have hc : (c :: cs).count sep = cs.count sep := List.count_cons_of_ne (Ne.symm h) cs
      cases hs : splitChars sep cs with
      | nil => exact absurd hs (splitChars_ne_nil sep cs)
      | cons q qs =>
        rw [hs] at ih
        simp only [splitChars, h, hs, if_false, hc]
        simpa using ih

theorem splitChars_intercalate (sep : Char) (l : List Char) :
    [sep].intercalate (splitChars sep l) = l := by
  induction l with
  | nil => simp [splitChars, List.intercalate]
  | cons c cs ih =>
    cases hs : splitChars sep cs with
    | nil => exact absurd hs (splitChars_ne_nil sep cs)
    | cons q qs =>
      rw [hs] at ih
      by_cases h : c = sep
      · simp only [splitChars, h, hs, if_true]
        simp only [List.intercalate, List.intersperse] at ih ⊢
        simp [ih]
      · simp only [splitChars, h, hs, if_false]
        cases qs with
        | nil =>
          simp only [List.intercalate, List.intersperse] at ih ⊢
          simpa using ih
        | cons r rs =>
          simp only [List.intercalate, List.intersperse] at ih ⊢
          simpa using ih

theorem splitChars_not_mem (sep : Char) (l : List Char) :
    ∀ seg ∈ splitChars sep l, sep ∉ seg := by
  induction l with
  | nil => simp [splitChars]
  | cons c cs ih =>
    by_cases h : c = sep
    · simp only [splitChars, h, if_true]
      intro seg hseg
      rcases List.mem_cons.1 hseg with rfl | hseg
      · simp
      · exact ih seg hseg
    · cases hs : splitChars sep cs with
      | nil => exact absurd hs (splitChars_ne_nil sep cs)
      | cons q qs =>
        rw [hs] at ih
        simp only [splitChars, h, hs, if_false]
        intro seg hseg
        rcases List.mem_cons.1 hseg with rfl | hseg
        · have hq := ih q (List.mem_cons_self q qs)
          simp only [List.mem_cons, not_or]
          exact ⟨Ne.symm h, hq⟩
        · exact ih seg (List.mem_cons_of_mem q hseg)

theorem stringsSplit_length (s : String) (sep : Char) :
    (stringsSplit s sep).length = stringsCount s sep + 1 := by
  simp [stringsSplit, stringsCount, splitChars_length]

/-- A string that splits into two parts is those two parts around one
separator, and neither part contains the separator. -/
theorem stringsSplit_two (s : String) (sep : Char)
    (h : (stringsSplit s sep).length = 2) :
    ∃ a b : String, stringsSplit s sep = [a, b] ∧ s = a ++ String.singleton sep ++ b ∧
      sep ∉ a.data ∧ sep ∉ b.data := by
  have hlen : (splitChars sep s.data).length = 2 := by
    simpa [stringsSplit] using h
  match hs : splitChars sep s.data, hlen with
  | [a, b], _ =>
    have hj := splitChars_intercalate sep s.data
    have hm := splitChars_not_mem sep s.data
    rw [hs] at hj hm
    refine ⟨String.mk a, String.mk b, by simp [stringsSplit, hs], ?_, ?_, ?_⟩
    · apply String.ext
      simp only [String.data_append, String.singleton]
      rw [← hj]
      simp [List.intercalate]
    · exact hm a (by simp)
    · exact hm b (by simp)

/-- What `main` does once the identity is known: the repository validation,
then the submission of the run built for the identity. -/
theorem main_of_identity (E : Env) (actions : Option (List Action)) (data : Payload)
    (repo commit branch : String)
    (ha : parseActions E = .ok actions)
    (hp : E.unmarshalPayload (E.Getenv "CHECK_PAYLOAD") = .ok data)
    (hr : repoCommitBranch E.json data = .ret repo commit branch none) :
    main E =
      if (stringsSplit repo '/').length ≠ 2 then .exit 1 repositoryRequired none
      else submit E (mainBaseURL E) (mainUploadURL E) data.Token
        ((stringsSplit repo '/').getD 0 "") ((stringsSplit repo '/').getD 1 "")
        (mainRun E actions commit branch) := by
  simp only [main, ha, hp, hr, mainRun, mainBaseURL, mainUploadURL, repositoryRequired]

/-- A decode error of a recognised type is returned as it is. -/
theorem repoCommitBranch_of_decode_error (J : Codec) (p : Payload) (e : String)
    (h : (p.Type_ = "check_run" ∧ J.unmarshalCheckRunEvent p.Body = .error e) ∨
         (p.Type_ = "check_suite" ∧ J.unmarshalCheckSuiteEvent p.Body = .error e) ∨
         (p.Type_ = "issue_comment" ∧ J.unmarshalIssueCommentEvent p.Body = .error e)) :
    repoCommitBranch J p = .ret "" "" "" (some e) := by
  have h1 : ¬ ("issue_comment" = "check_run") := by decide
  have h2 : ¬ ("issue_comment" = "check_suite") := by decide
  have h3 : ¬ ("check_suite" = "check_run") := by decide
  rcases h with ⟨hT, hd⟩ | ⟨hT, hd⟩ | ⟨hT, hd⟩
  · simp [repoCommitBranch, jsonMarshal, hT, hd]
  · simp [repoCommitBranch, jsonMarshal, hT, hd, h3]
  · simp [repoCommitBranch, jsonMarshal, hT, hd, h1, h2]

/-- The panic of `repoCommitBranch`: a `check_run` payload whose body has no
`check_run` object decodes, and the read of `event.CheckRun.CheckSuite` goes
through a nil pointer. -/
theorem repoCommitBranch_check_run_nil :
    repoCommitBranch goJSON
      { Type_ := "check_run", Token := "t", Body := emptyBody, Commit := "", Branch := "" }
      = .panic := by
  rfl

/-! ## Theorems about `repoCommitBranch` -/

/-- C1. A `check_suite` payload whose body decodes as a check-suite event with
repository full name `r`, head SHA `c` and head branch `b` gives `(r, c, b)`
and the nil error, whatever the override fields `Commit` and `Branch` hold; and
the scenario body gives `("acme/widget", "abc123", "main")`. -/
theorem repoCommitBranch_check_suite :
    (∀ (J : Codec) (p : Payload) (ev : CheckSuiteEvent) (r c b : String),
      p.Type_ = "check_suite" →
      J.unmarshalCheckSuiteEvent p.Body = .ok ev →
      Repository.GetFullName ev.Repo = r →
      CheckSuite.GetHeadSHA ev.CheckSuite = c →
      CheckSuite.GetHeadBranch ev.CheckSuite = b →
      repoCommitBranch J p = .ret r c b none) ∧
    (∀ token commit branch : String,
      repoCommitBranch goJSON
        { Type_ := "check_suite", Token := token, Body := scenarioBody,
          Commit := commit, Branch := branch }
        = .ret "acme/widget" "abc123" "main" none) := by
  refine ⟨?_, ?_⟩
  · intro J p ev r c b hT hdec hr hc hb
    subst hr hc hb
    simp [repoCommitBranch, jsonMarshal, hT, hdec]
  · intro token commit branch
    rfl

/-- The scenario of C1, with override fields that differ from the body. -/
theorem repoCommitBranch_check_suite_witness :
    repoCommitBranch goJSON
      { Type_ := "check_suite", Token := "t", Body := scenarioBody,
        Commit := "ffff", Branch := "other" }
      = .ret "acme/widget" "abc123" "main" none :=
  repoCommitBranch_check_suite.1 goJSON _
    { CheckSuite := some { HeadBranch := some "main", HeadSHA := some "abc123" }
      Repo := some { FullName := some "acme/widget" } }
    _ _ _ rfl rfl rfl rfl rfl

/-- C2. A `check_run` payload whose body decodes as a check-run event with
repository full name `r` and a check run whose nested check suite has head SHA
`c` and head branch `b` gives `(r, c, b)` and the nil error: the override
fields play no part. -/
theorem repoCommitBranch_check_run (J : Codec) (p : Payload) (ev : CheckRunEvent)
    (cr : CheckRun) (r c b : String)
    (hT : p.Type_ = "check_run")
    (hdec : J.unmarshalCheckRunEvent p.Body = .ok ev)
    (hcr : ev.CheckRun = some cr)
    (hr : Repository.GetFullName ev.Repo = r)
    (hc : CheckSuite.GetHeadSHA cr.CheckSuite = c)
    (hb : CheckSuite.GetHeadBranch cr.CheckSuite = b) :
    repoCommitBranch J p = .ret r c b none := by
  subst hr hc hb
  simp [repoCommitBranch, jsonMarshal, hT, hdec, hcr]

/-- C2 at a check-run body, with override fields that differ from the body. -/
theorem repoCommitBranch_check_run_witness :
    repoCommitBranch goJSON
      { Type_ := "check_run", Token := "t", Body := checkRunBody,
        Commit := "ffff", Branch := "other" }
      = .ret "acme/widget" "abc123" "main" none :=
  repoCommitBranch_check_run goJSON _
    { CheckRun := some { CheckSuite := some { HeadBranch := some "main", HeadSHA := some "abc123" } }
      Repo := some { FullName := some "acme/widget" } }
    { CheckSuite := some { HeadBranch := some "main", HeadSHA := some "abc123" } }
    _ _ _ rfl rfl rfl rfl rfl rfl

/-- C3. An `issue_comment` payload whose body decodes as an issue-comment
event: with an empty `Commit` or an empty `Branch` the error is not nil; with
both non-empty the error is nil, commit and branch are `Commit` and `Branch`
exactly, and the repository is the body's repository full name. -/
theorem repoCommitBranch_issue_comment (J : Codec) (p : Payload) (ev : IssueCommentEvent)
    (hT : p.Type_ = "issue_comment")
    (hdec : J.unmarshalIssueCommentEvent p.Body = .ok ev) :
    ((p.Commit = "" ∨ p.Branch = "") →
      ∃ repo commit branch msg, repoCommitBranch J p = .ret repo commit branch (some msg)) ∧
    (p.Commit ≠ "" → p.Branch ≠ "" →
      repoCommitBranch J p
        = .ret (Repository.GetFullName ev.Repo) p.Commit p.Branch none) := by
  have h1 : ¬ ("issue_comment" = "check_run") := by decide
  have h2 : ¬ ("issue_comment" = "check_suite") := by decide
  refine ⟨?_, ?_⟩
  · intro h
    by_cases hc : p.Commit = ""
    · exact ⟨Repository.GetFullName ev.Repo, "", "", "commit empty", by
        simp [repoCommitBranch, jsonMarshal, hT, hdec, h1, h2, hc]⟩
    · have hb : p.Branch = "" := h.resolve_left hc
      exact ⟨Repository.GetFullName ev.Repo, p.Commit, "", "branch empty", by
        simp [repoCommitBranch, jsonMarshal, hT, hdec, h1, h2, hc, hb]⟩
  · intro hc hb
    simp [repoCommitBranch, jsonMarshal, hT, hdec, h1, h2, hc, hb]

/-- C3 at an issue-comment body: overrides given, and overrides missing. -/
theorem repoCommitBranch_issue_comment_witness :
    repoCommitBranch goJSON
        { Type_ := "issue_comment", Token := "t", Body := issueCommentBody,
          Commit := "abc123", Branch := "main" }
      = .ret "acme/widget" "abc123" "main" none ∧
    ∃ repo commit branch msg,
      repoCommitBranch goJSON
        { Type_ := "issue_comment", Token := "t", Body := issueCommentBody,
          Commit := "", Branch := "main" }
      = .ret repo commit branch (some msg) :=
  ⟨(repoCommitBranch_issue_comment goJSON
      { Type_ := "issue_comment", Token := "t", Body := issueCommentBody,
        Commit := "abc123", Branch := "main" }
      { Repo := some { FullName := some "acme/widget" } } rfl rfl).2 (by decide) (by decide),
   (repoCommitBranch_issue_comment goJSON
      { Type_ := "issue_comment", Token := "t", Body := issueCommentBody,
        Commit := "", Branch := "main" }
      { Repo := some { FullName := some "acme/widget" } } rfl rfl).1 (Or.inl rfl)⟩

/-- C4. A payload whose `Type` is none of `check_run`, `check_suite`,
`issue_comment` gives empty repo, commit and branch and the error
`unknown payload type <Type>`, whose message contains `Type`; so the error is
never nil. -/
theorem repoCommitBranch_unknown_type (J : Codec) (p : Payload)
    (h1 : p.Type_ ≠ "check_run") (h2 : p.Type_ ≠ "check_suite")
    (h3 : p.Type_ ≠ "issue_comment") :
    repoCommitBranch J p = .ret "" "" "" (some ("unknown payload type " ++ p.Type_)) ∧
    (∃ msg pre post, repoCommitBranch J p = .ret "" "" "" (some msg) ∧
      msg = pre ++ p.Type_ ++ post) ∧
    (∀ repo commit branch, repoCommitBranch J p ≠ .ret repo commit branch none) ∧
    repoCommitBranch J p ≠ .panic := by
  have h : repoCommitBranch J p = .ret "" "" "" (some ("unknown payload type " ++ p.Type_)) := by
    simp [repoCommitBranch, jsonMarshal, h1, h2, h3]
  refine ⟨h, ⟨_, "unknown payload type ", "", h, by simp⟩, ?_, ?_⟩
  · intro repo commit branch
    rw [h]
    simp
  · rw [h]
    simp

/-- C4 at the empty type and at the type `push`. -/
theorem repoCommitBranch_unknown_type_witness :
    repoCommitBranch goJSON
        { Type_ := "", Token := "t", Body := scenarioBody, Commit := "abc123", Branch := "main" }
      = .ret "" "" "" (some "unknown payload type ") ∧
    repoCommitBranch goJSON
        { Type_ := "push", Token := "t", Body := scenarioBody, Commit := "abc123", Branch := "main" }
      = .ret "" "" "" (some "unknown payload type push") :=
  ⟨(repoCommitBranch_unknown_type goJSON
      { Type_ := "", Token := "t", Body := scenarioBody, Commit := "abc123", Branch := "main" }
      (by decide) (by decide) (by decide)).1,
   (repoCommitBranch_unknown_type goJSON
      { Type_ := "push", Token := "t", Body := scenarioBody, Commit := "abc123", Branch := "main" }
      (by decide) (by decide) (by decide)).1⟩

/-! ## Theorems about the check run -/

/-- C5. The check run built in `main`, for every identity and every set of run
parameters: with a non-empty conclusion it has status `completed`, the
conclusion verbatim and `CompletedAt` set to the time stamp; with an empty
conclusion it has status `in_progress` and `Conclusion` and `CompletedAt`
unset.  Hence `Conclusion` is set exactly when the status is `completed`, and
so is `CompletedAt` (the time stamp being a non-empty string), and no run is
`in_progress` with `CompletedAt` set. -/
theorem buildRun_status (name branch commit startedAt externalID detailsURL title summary
    text conclusion : String) (actions : Option (List Action)) (now : String) (run : Run)
    (hrun : run = buildRun name branch commit startedAt externalID detailsURL title summary
      text conclusion actions now) :
    (conclusion ≠ "" →
      run.Status = "completed" ∧ run.Conclusion = conclusion ∧ run.CompletedAt = now) ∧
    (conclusion = "" →
      run.Status = "in_progress" ∧ run.Conclusion = "" ∧ run.CompletedAt = "") ∧
    (run.Conclusion ≠ "" ↔ run.Status = "completed") ∧
    (now ≠ "" → (run.CompletedAt ≠ "" ↔ run.Status = "completed")) ∧
    ¬ (run.Status = "in_progress" ∧ run.CompletedAt ≠ "") ∧
    run.HeadSHA = commit ∧ run.HeadBranch = branch := by
  have hne : ¬ ("in_progress" = "completed") := by decide
  have hne2 : ¬ ("completed" = "in_progress") := by decide
  subst hrun
  by_cases hc : conclusion = ""
  · subst hc
    have h0 : ¬ ("".length > 0) := by decide
    cases actions <;> simp [buildRun, h0, hne]
  · have hpos : conclusion.length > 0 := (length_pos_iff_ne_empty conclusion).2 hc
    cases actions <;> simp [buildRun, hpos, hc, hne2]

/-- C5 at the scenario with `CHECK_CONCLUSION=success`, and with no conclusion. -/
theorem buildRun_status_witness :
    ((buildRun "Brigade" "main" "abc123" "2018-01-01T00:00:00Z" "" "" "Running Check" "" ""
        "success" none "2018-01-01T00:00:05Z").Status = "completed" ∧
     (buildRun "Brigade" "main" "abc123" "2018-01-01T00:00:00Z" "" "" "Running Check" "" ""
        "success" none "2018-01-01T00:00:05Z").Conclusion = "success" ∧
     (buildRun "Brigade" "main" "abc123" "2018-01-01T00:00:00Z" "" "" "Running Check" "" ""
        "success" none "2018-01-01T00:00:05Z").CompletedAt = "2018-01-01T00:00:05Z") ∧
    ((buildRun "Brigade" "main" "abc123" "2018-01-01T00:00:00Z" "" "" "Running Check" "" ""
        "" none "2018-01-01T00:00:05Z").Status = "in_progress" ∧
     (buildRun "Brigade" "main" "abc123" "2018-01-01T00:00:00Z" "" "" "Running Check" "" ""
        "" none "2018-01-01T00:00:05Z").Conclusion = "" ∧
     (buildRun "Brigade" "main" "abc123" "2018-01-01T00:00:00Z" "" "" "Running Check" "" ""
        "" none "2018-01-01T00:00:05Z").CompletedAt = "") :=
  ⟨(buildRun_status "Brigade" "main" "abc123" "2018-01-01T00:00:00Z" "" "" "Running Check" "" ""
      "success" none "2018-01-01T00:00:05Z" _ rfl).1 (by decide),
   (buildRun_status "Brigade" "main" "abc123" "2018-01-01T00:00:00Z" "" "" "Running Check" "" ""
      "" none "2018-01-01T00:00:05Z" _ rfl).2.1 rfl⟩

/-! ## Theorems about `main` -/

/-- C6. Once `repoCommitBranch` has returned the repository `repo` with a nil
error, the validation of `main` lets `repo` through exactly when it contains
one `/`: with no `/` or more than one, `main` exits with code 1 and no check run
is submitted; with exactly one, `main` goes on to submit the run built for the
identity, with the two parts as owner and name. -/
theorem main_repository_validation (E : Env) (actions : Option (List Action))
    (data : Payload) (repo commit branch : String)
    (ha : parseActions E = .ok actions)
    (hp : E.unmarshalPayload (E.Getenv "CHECK_PAYLOAD") = .ok data)
    (hr : repoCommitBranch E.json data = .ret repo commit branch none) :
    ((stringsSplit repo '/').length = 2 ↔ stringsCount repo '/' = 1) ∧
    (stringsCount repo '/' ≠ 1 → main E = .exit 1 repositoryRequired none) ∧
    (stringsCount repo '/' = 1 →
      ∃ owner name, stringsSplit repo '/' = [owner, name] ∧
        main E = submit E (mainBaseURL E) (mainUploadURL E) data.Token owner name
          (mainRun E actions commit branch)) := by
  have hlen := stringsSplit_length repo '/'
  have hmain := main_of_identity E actions data repo commit branch ha hp hr
  refine ⟨by omega, ?_, ?_⟩
  · intro hne
    have h2 : (stringsSplit repo '/').length ≠ 2 := by omega
    rw [hmain, if_pos h2]
  · intro h1
    have h2 : (stringsSplit repo '/').length = 2 := by omega
    obtain ⟨owner, name, hsplit, -⟩ := stringsSplit_two repo '/' h2
    refine ⟨owner, name, hsplit, ?_⟩
    rw [hmain, if_neg (by simpa using h2), hsplit]
    rfl

/-- C6 at a repository full name with no `/`. -/
theorem main_repository_validation_witness :
    stringsCount "widget" '/' ≠ 1 ∧ main envNoSlash = .exit 1 repositoryRequired none :=
  ⟨by decide,
   (main_repository_validation envNoSlash none (checkSuitePayload (bodyWithRepository "widget"))
      "widget" "abc123" "main" rfl rfl rfl).2.1 (by decide)⟩

/-- C7, as the code has it.  A run that ends without a panic has exit code: 1
for malformed actions JSON, 1 for malformed payload JSON, 2 for a failed
identity normalisation, 1 for a repository that does not split in two, 3 for a
failed client construction, 1 for a failed submission, 0 on success.  Every
failure code is non-zero; 2 and 3 each name one class, 1 is shared by four. -/
theorem main_exit_codes (E : Env) :
    (∀ err, parseActions E = .error err → (main E).exitCode = some 1) ∧
    (∀ actions err, parseActions E = .ok actions →
      E.unmarshalPayload (E.Getenv "CHECK_PAYLOAD") = .error err →
      (main E).exitCode = some 1) ∧
    (∀ actions data repo commit branch err, parseActions E = .ok actions →
      E.unmarshalPayload (E.Getenv "CHECK_PAYLOAD") = .ok data →
      repoCommitBranch E.json data = .ret repo commit branch (some err) →
      (main E).exitCode = some 2) ∧
    (∀ actions data repo commit branch, parseActions E = .ok actions →
      E.unmarshalPayload (E.Getenv "CHECK_PAYLOAD") = .ok data →
      repoCommitBranch E.json data = .ret repo commit branch none →
      ((stringsSplit repo '/').length ≠ 2 → (main E).exitCode = some 1) ∧
      ((stringsSplit repo '/').length = 2 →
        ∃ owner name, main E = submit E (mainBaseURL E) (mainUploadURL E) data.Token
          owner name (mainRun E actions commit branch))) ∧
    (∀ base upload token owner name run err,
      E.NewClientFromInstallationToken base upload token = .error err →
      (submit E base upload token owner name run).exitCode = some 3) ∧
    (∀ base upload token owner name run ghc printed out err,
      E.NewClientFromInstallationToken base upload token = .ok ghc →
      checkTool.createRun { client := ghc, owner := owner, repo := name } run
        = .ret printed out (some err) →
      (submit E base upload token owner name run).exitCode = some 1) ∧
    (∀ base upload token owner name run ghc printed out,
      E.NewClientFromInstallationToken base upload token = .ok ghc →
      checkTool.createRun { client := ghc, owner := owner, repo := name } run
        = .ret printed out none →
      (submit E base upload token owner name run).exitCode = some 0) := by
  refine ⟨?_, ?_, ?_, ?_, ?_, ?_, ?_⟩
  · intro err ha
    simp [main, ha, MainOutcome.exitCode]
  · intro actions err ha hp
    simp [main, ha, hp, MainOutcome.exitCode]
  · intro actions data repo commit branch err ha hp hr
    simp [main, ha, hp, hr, MainOutcome.exitCode]
  · intro actions data repo commit branch ha hp hr
    have hmain := main_of_identity E actions data repo commit branch ha hp hr
    refine ⟨?_, ?_⟩
    · intro h2
      rw [hmain, if_pos h2]
      rfl
    · intro h2
      refine ⟨(stringsSplit repo '/').getD 0 "", (stringsSplit repo '/').getD 1 "", ?_⟩
      rw [hmain, if_neg (by simpa using h2)]
  · intro base upload token owner name run err hc
    simp [submit, hc, MainOutcome.exitCode]
  · intro base upload token owner name run ghc printed out err hc hcr
    simp [submit, hc, hcr, MainOutcome.exitCode]
  · intro base upload token owner name run ghc printed out hc hcr
    simp [submit, hc, hcr, MainOutcome.exitCode]

/-- C7 as amended, at an unknown event type (code 2) and at a client that
cannot be constructed (code 3). -/
theorem main_exit_codes_witness :
    (main envUnknownType).exitCode = some 2 ∧
    (submit envNoClient "" "" "t" "acme" "widget"
      (mainRun envNoClient none "abc123" "main")).exitCode = some 3 :=
  ⟨(main_exit_codes envUnknownType).2.2.1 none
      { Type_ := "push", Token := "t", Body := scenarioBody, Commit := "", Branch := "" }
      "" "" "" "unknown payload type push" rfl rfl rfl,
   (main_exit_codes envNoClient).2.2.2.2.1 "" "" "t" "acme" "widget" _
      "failed to parse base URL" rfl⟩

/-- C7 fails as stated: malformed actions JSON, malformed payload JSON, a
repository without `/` and a rejected submission are four classes of failure,
and all four exit with code 1. -/
theorem main_exit_codes_not_distinct :
    main envBadActions
      = .exit 1 "Error: could not parse actions: unexpected end of JSON input\n" none ∧
    main envBadPayload
      = .exit 1 "Error: could not parse payload: unexpected end of JSON input\n" none ∧
    main envNoSlash = .exit 1 repositoryRequired none ∧
    (main envRejected).exitCode = some 1 ∧
    (main envBadActions).exitCode = (main envBadPayload).exitCode ∧
    (main envBadPayload).exitCode = (main envNoSlash).exitCode ∧
    (main envNoSlash).exitCode = (main envRejected).exitCode := by
  refine ⟨rfl, rfl, rfl, rfl, rfl, rfl, rfl⟩

/-! ## Bodies that do not have the expected shape -/

/-- C8, as the code has it.  For a payload of a recognised type, a body that
fails to decode into the event of that type gives the decode error with empty
repo, commit and branch; with `encoding/json` that is every body that is
neither an object nor `null`.  A body that decodes is not checked further: on a
`check_suite` payload whose event has no check-suite object, the error is nil
and commit and branch are empty. -/
theorem repoCommitBranch_malformed_body (J : Codec) (p : Payload) :
    (∀ e, p.Type_ = "check_run" → J.unmarshalCheckRunEvent p.Body = .error e →
      repoCommitBranch J p = .ret "" "" "" (some e)) ∧
    (∀ e, p.Type_ = "check_suite" → J.unmarshalCheckSuiteEvent p.Body = .error e →
      repoCommitBranch J p = .ret "" "" "" (some e)) ∧
    (∀ e, p.Type_ = "issue_comment" → J.unmarshalIssueCommentEvent p.Body = .error e →
      repoCommitBranch J p = .ret "" "" "" (some e)) ∧
    ((p.Type_ = "check_run" ∨ p.Type_ = "check_suite" ∨ p.Type_ = "issue_comment") →
      p.Body.isRecord = false →
      ∃ e, repoCommitBranch goJSON p = .ret "" "" "" (some e)) ∧
    (∀ ev, p.Type_ = "check_suite" → J.unmarshalCheckSuiteEvent p.Body = .ok ev →
      ev.CheckSuite = none →
      repoCommitBranch J p = .ret (Repository.GetFullName ev.Repo) "" "" none) := by
  refine ⟨?_, ?_, ?_, ?_, ?_⟩
  · intro e hT hd
    exact repoCommitBranch_of_decode_error J p e (Or.inl ⟨hT, hd⟩)
  · intro e hT hd
    exact repoCommitBranch_of_decode_error J p e (Or.inr (Or.inl ⟨hT, hd⟩))
  · intro e hT hd
    exact repoCommitBranch_of_decode_error J p e (Or.inr (Or.inr ⟨hT, hd⟩))
  · intro hT hrec
    rcases hT with hT | hT | hT
    · cases hb : p.Body <;> rw [hb] at hrec <;> simp [Json.isRecord] at hrec <;>
        exact ⟨_, repoCommitBranch_of_decode_error goJSON p _ (Or.inl ⟨hT, by rw [hb]; rfl⟩)⟩
    · cases hb : p.Body <;> rw [hb] at hrec <;> simp [Json.isRecord] at hrec <;>
        exact ⟨_, repoCommitBranch_of_decode_error goJSON p _
          (Or.inr (Or.inl ⟨hT, by rw [hb]; rfl⟩))⟩
    · cases hb : p.Body <;> rw [hb] at hrec <;> simp [Json.isRecord] at hrec <;>
        exact ⟨_, repoCommitBranch_of_decode_error goJSON p _
          (Or.inr (Or.inr ⟨hT, by rw [hb]; rfl⟩))⟩
  · intro ev hT hd hnone
    simp [repoCommitBranch, jsonMarshal, hT, hd, hnone, CheckSuite.GetHeadSHA,
      CheckSuite.GetHeadBranch]

/-- C8 as amended, at a `check_suite` payload whose body is a JSON array. -/
theorem repoCommitBranch_malformed_body_witness :
    ∃ e, repoCommitBranch goJSON (checkSuitePayload (Json.arr [])) = .ret "" "" "" (some e) :=
  (repoCommitBranch_malformed_body goJSON (checkSuitePayload (Json.arr []))).2.2.2.1
    (Or.inr (Or.inl rfl)) rfl

/-- C8 fails as stated: a `check_suite` payload whose body `{}` has no
`check_suite` object gives the nil error, with the empty string for the
repository, the commit and the branch. -/
theorem repoCommitBranch_missing_object_no_error :
    repoCommitBranch goJSON (checkSuitePayload emptyBody) = .ret "" "" "" none := by
  rfl

/-! ## Empty commit and branch -/

/-- C9, as the code has it.  On an `issue_comment` payload an empty `Commit`
gives the error `commit empty` and an empty `Branch` (with a non-empty
`Commit`) the error `branch empty`, so a nil error comes with a non-empty commit
and a non-empty branch.  On a `check_suite` or `check_run` payload the commit
and the branch of the body are returned with a nil error, empty or not. -/
theorem repoCommitBranch_empty_fields (J : Codec) (p : Payload) :
    (p.Type_ = "issue_comment" → ∀ repo commit branch,
      repoCommitBranch J p = .ret repo commit branch none → commit ≠ "" ∧ branch ≠ "") ∧
    (p.Type_ = "issue_comment" → ∀ ev, J.unmarshalIssueCommentEvent p.Body = .ok ev →
      p.Commit = "" →
      repoCommitBranch J p = .ret (Repository.GetFullName ev.Repo) "" "" (some "commit empty")) ∧
    (p.Type_ = "issue_comment" → ∀ ev, J.unmarshalIssueCommentEvent p.Body = .ok ev →
      p.Commit ≠ "" → p.Branch = "" →
      repoCommitBranch J p
        = .ret (Repository.GetFullName ev.Repo) p.Commit "" (some "branch empty")) ∧
    (p.Type_ = "check_suite" → ∀ ev, J.unmarshalCheckSuiteEvent p.Body = .ok ev →
      repoCommitBranch J p
        = .ret (Repository.GetFullName ev.Repo) (CheckSuite.GetHeadSHA ev.CheckSuite)
            (CheckSuite.GetHeadBranch ev.CheckSuite) none) ∧
    (p.Type_ = "check_run" → ∀ ev cr, J.unmarshalCheckRunEvent p.Body = .ok ev →
      ev.CheckRun = some cr →
      repoCommitBranch J p
        = .ret (Repository.GetFullName ev.Repo) (CheckSuite.GetHeadSHA cr.CheckSuite)
            (CheckSuite.GetHeadBranch cr.CheckSuite) none) := by
  have h1 : ¬ ("issue_comment" = "check_run") := by decide
  have h2 : ¬ ("issue_comment" = "check_suite") := by decide
  have h3 : ¬ ("check_suite" = "check_run") := by decide
  refine ⟨?_, ?_, ?_, ?_, ?_⟩
  · intro hT repo commit branch hret
    cases hd : J.unmarshalIssueCommentEvent p.Body with
    | error e => simp [repoCommitBranch, jsonMarshal, hT, hd, h1, h2] at hret
    | ok ev =>
      by_cases hc : p.Commit = ""
      · simp [repoCommitBranch, jsonMarshal, hT, hd, h1, h2, hc] at hret
      · by_cases hb : p.Branch = ""
        · simp [repoCommitBranch, jsonMarshal, hT, hd, h1, h2, hc, hb] at hret
        · simp only [repoCommitBranch, jsonMarshal, hT, hd, h1, h2, hc, hb, if_false,
            Outcome.ret.injEq] at hret
          obtain ⟨-, rfl, rfl, -⟩ := hret
          exact ⟨hc, hb⟩
  · intro hT ev hd hc
    simp [repoCommitBranch, jsonMarshal, hT, hd, h1, h2, hc]
  · intro hT ev hd hc hb
    simp [repoCommitBranch, jsonMarshal, hT, hd, h1, h2, hc, hb]
  · intro hT ev hd
    simp [repoCommitBranch, jsonMarshal, hT, hd, h3]
  · intro hT ev cr hd hcr
    simp [repoCommitBranch, jsonMarshal, hT, hd, hcr]

/-- C9 as amended, at an issue-comment payload without a commit override and
at a check-suite payload whose head SHA and head branch are empty strings. -/
theorem repoCommitBranch_empty_fields_witness :
    repoCommitBranch goJSON
        { Type_ := "issue_comment", Token := "t", Body := issueCommentBody,
          Commit := "", Branch := "main" }
      = .ret "acme/widget" "" "" (some "commit empty") ∧
    repoCommitBranch goJSON (checkSuitePayload
        (Json.obj [("check_suite", Json.obj [("head_sha", Json.str ""),
                                             ("head_branch", Json.str "")])]))
      = .ret "" "" "" none :=
  ⟨(repoCommitBranch_empty_fields goJSON
      { Type_ := "issue_comment", Token := "t", Body := issueCommentBody,
        Commit := "", Branch := "main" }).2.1 rfl
      { Repo := some { FullName := some "acme/widget" } } rfl rfl,
   (repoCommitBranch_empty_fields goJSON (checkSuitePayload
      (Json.obj [("check_suite", Json.obj [("head_sha", Json.str ""),
                                           ("head_branch", Json.str "")])]))).2.2.2.1 rfl
      { CheckSuite := some { HeadBranch := some "", HeadSHA := some "" }, Repo := none } rfl⟩

/-- C9 fails as stated: a `check_suite` payload whose body has a repository and
no `check_suite` object gives a nil error with an empty commit and an empty
branch, and `main` submits a check run whose `HeadSHA` and `HeadBranch` are
empty. -/
theorem main_submits_empty_head :
    repoCommitBranch goJSON (checkSuitePayload repositoryOnlyBody)
      = .ret "acme/widget" "" "" none ∧
    ∃ run, main envNoSuite = .exit 0 "created\n" (some ("acme", "widget", run)) ∧
      run.HeadSHA = "" ∧ run.HeadBranch = "" :=
  ⟨rfl, _, rfl, rfl, rfl⟩

/-! ## Owner and name -/

/-- C10, as the code has it.  A repository string that passes the validation
of `main` splits into exactly two segments `owner` and `name`, neither with a
`/`, with `repo = owner/name`, so the request path is `repos/<repo>/check-runs`.
The segments may be empty: `owner/`, `/name` and `/` pass the validation. -/
theorem repository_validation_segments :
    (∀ repo : String, (stringsSplit repo '/').length = 2 →
      ∃ owner name, stringsSplit repo '/' = [owner, name] ∧
        repo = owner ++ "/" ++ name ∧ '/' ∉ owner.data ∧ '/' ∉ name.data ∧
        checkRunsPath owner name = "repos/" ++ repo ++ "/check-runs") ∧
    stringsSplit "owner/" '/' = ["owner", ""] ∧
    stringsSplit "/name" '/' = ["", "name"] ∧
    stringsSplit "/" '/' = ["", ""] := by
  refine ⟨?_, by decide, by decide, by decide⟩
  intro repo h
  obtain ⟨owner, name, hsplit, hrepo, ho, hn⟩ := stringsSplit_two repo '/' h
  have hs : String.singleton '/' = "/" := rfl
  rw [hs] at hrepo
  refine ⟨owner, name, hsplit, hrepo, ho, hn, ?_⟩
  rw [hrepo]
  simp [checkRunsPath, String.append_assoc]

/-- C10 as amended, at `acme/widget`. -/
theorem repository_validation_segments_witness :
    ∃ owner name, stringsSplit "acme/widget" '/' = [owner, name] ∧
      "acme/widget" = owner ++ "/" ++ name ∧ '/' ∉ owner.data ∧ '/' ∉ name.data ∧
      checkRunsPath owner name = "repos/" ++ "acme/widget" ++ "/check-runs" :=
  repository_validation_segments.1 "acme/widget" (by decide)

/-- C10 fails as stated: the repository `owner/` passes the validation, and
`main` submits the check run with owner `owner` and an empty name. -/
theorem main_submits_empty_name :
    (stringsSplit "owner/" '/').length = 2 ∧
    repoCommitBranch goJSON (checkSuitePayload (bodyWithRepository "owner/"))
      = .ret "owner/" "abc123" "main" none ∧
    ∃ run, main envTrailingSlash = .exit 0 "created\n" (some ("owner", "", run)) :=
  ⟨by decide, rfl, _, rfl⟩

end Brigade
